import Mathlib

/-!
Shallow embedding of the real-time chat client (client App component:
Firestore-backed durable history merged with live socket messages, a typing
debouncer, an outbound send coordinator, and a connection lifecycle guard).

Pure functions below translate the handlers of the App component; React state
is made explicit as record fields, `useRef` cells as ordinary fields, and the
single-threaded event loop as folds over event lists.  `setTimeout` handles are
modelled by the absolute expiry instant of the pending timer.
-/

namespace Chat

/-- Translation of JS String.prototype.trim: drop whitespace from both ends.
The source calls input.trim() before the empty-text guard in handleSend. -/
def jsTrim (s : String) : String :=
  String.mk (((s.data.dropWhile Char.isWhitespace).reverse.dropWhile Char.isWhitespace).reverse)

/-- A chat message as the App component sees it.  Durable (Firestore) messages
carry a store-assigned id; live (socket) messages may be unidentified, which we
render as id = none.  An empty-string id is kept distinct from none because the
JS key expression msg.id || index treats both as falsy. -/
structure Message where
  id : Option String
  sender : String
  text : String
  timestamp : String
  system : Bool := false
  isPrivate : Bool := false
deriving Repr, DecidableEq, BEq

/-- Default message used only as the fallback of List.getD lookups. -/
def defaultMsg : Message := { id := none, sender := "", text := "", timestamp := "" }

/-- One document of a Firestore query snapshot: the store-assigned document id
together with the stored message data (doc.id and doc.data() in the source). -/
structure FireDoc where
  docId : String
  data : Message
deriving Repr, DecidableEq, BEq

/-- Translation of the snapshot mapper: doc maps to (...doc.data(), id: doc.id),
so the store-assigned document id overwrites any id field in the data. -/
def withDocId (d : FireDoc) : Message :=
  { d.data with id := some d.docId }

/-- Translation of the onSnapshot callback body: snapshot.docs (newest-first,
per the orderBy timestamp desc query) mapped to messages with the doc id
attached, then reversed to oldest-first. -/
def processSnapshot (docs : List FireDoc) : List Message :=
  (docs.map withDocId).reverse

/-- The limit(50) clause of the Firestore query: the store hands the client at
most the first 50 documents of its newest-first ordering. -/
def queryCap (docs : List FireDoc) : List FireDoc :=
  docs.take 50

/-- The App component state relevant to the merge view, the input box, and the
typing debouncer.  persistentMessages is the Firestore-backed durable list,
liveMessages the socket hook message list, input the controlled text field,
timeoutAt the expiry instant of the pending typing timer (typingTimeoutRef:
none when the ref is null), username the session username. -/
structure AppState where
  input : String
  timeoutAt : Option Nat
  username : String
  persistentMessages : List Message
  liveMessages : List Message
deriving Repr, DecidableEq, BEq

/-- Initial App state: empty input, no pending timer, no username chosen,
empty durable and live lists. -/
def initApp : AppState :=
  { input := "", timeoutAt := none, username := "",
    persistentMessages := [], liveMessages := [] }

/-- Translation of allMessages = [...persistentMessages, ...liveMessages]:
the rendered view concatenates the durable list before the live list. -/
def allMessages (s : AppState) : List Message :=
  s.persistentMessages ++ s.liveMessages

/-- Events consumed by the reconciliation state: a Firestore snapshot arriving
(durableSnapshot), a live socket message arriving (liveMessage), and the
Firestore error callback firing (durableError). -/
inductive EngineEvent where
  | durableSnapshot (docs : List FireDoc)
  | liveMessage (m : Message)
  | durableError
deriving Repr, DecidableEq, BEq

/-- One engine transition.  A snapshot replaces persistentMessages wholesale
with the processed snapshot (setPersistentMessages(newMessages) in the source).
A live message is appended to liveMessages.  Modelled from the spec: the live
append order (receipt order) comes from section 4.1 because the socket hook
source (client/src/socket/socket.js) is not in the repository snapshot.  The
error callback only logs (console.error) and changes no state. -/
def engineStep (s : AppState) : EngineEvent → AppState
  | .durableSnapshot docs => { s with persistentMessages := processSnapshot docs }
  | .liveMessage m => { s with liveMessages := s.liveMessages ++ [m] }
  | .durableError => s

/-- Run the engine over a list of events, one handler to completion at a time. -/
def engineRun (s : AppState) (es : List EngineEvent) : AppState :=
  es.foldl engineStep s

/-- The docs of the latest durable snapshot in an event list, starting from a
given current value (last snapshot wins). -/
def latestSnapshotDocs (cur : List FireDoc) : List EngineEvent → List FireDoc
  | [] => cur
  | .durableSnapshot docs :: rest => latestSnapshotDocs docs rest
  | _ :: rest => latestSnapshotDocs cur rest

/-- The live messages delivered in an event list, in receipt order. -/
def liveReceived (es : List EngineEvent) : List Message :=
  es.filterMap (fun e => match e with | .liveMessage m => some m | _ => none)

/-- Commands the App component sends to the live transport (socket hook):
sendMessage(text) and setTyping(flag). -/
inductive TransportCmd where
  | sendMessage (text : String)
  | setTyping (flag : Bool)
deriving Repr, DecidableEq, BEq

/-- Translation of handleInputChange, at wall-clock instant now: store the new
text; emit setTyping(true) only when the text is non-empty and no typing timer
is pending; always clearTimeout the old timer and schedule a fresh one firing
2000 ms from now.  Returns the new state and the transport emissions. -/
def handleInputChange (now : Nat) (newText : String) (s : AppState) :
    AppState × List TransportCmd :=
  let emits := if 0 < newText.length ∧ s.timeoutAt = none
    then [TransportCmd.setTyping true] else []
  ({ s with input := newText, timeoutAt := some (now + 2000) }, emits)

/-- The typing timer firing: the scheduled callback emits setTyping(false) and
nulls the timer ref. -/
def timerFire (s : AppState) : AppState × List TransportCmd :=
  ({ s with timeoutAt := none }, [TransportCmd.setTyping false])

/-- Translation of handleSend at timestamp ts: trim the input; if the trimmed
text or the username is empty, return with no effect.  Otherwise emit
sendMessage(text) to the transport, hand the message (text, sender, timestamp,
no id) to the durable append, emit setTyping(false), clear the typing timer,
and clear the input.  The third component is the message passed to
sendMessageToDb (none when the guard returned early). -/
def handleSend (ts : String) (s : AppState) :
    AppState × List TransportCmd × Option Message :=
  let text := jsTrim s.input
  if text = "" ∨ s.username = "" then (s, [], none)
  else
    ({ s with input := "", timeoutAt := none },
     [TransportCmd.sendMessage text, TransportCmd.setTyping false],
     some { id := none, sender := s.username, text := text, timestamp := ts })

/-- Translation of sendMessageToDb applied to a durable store modelled as the
list of appended messages: addDoc appends when it succeeds; when it rejects the
catch block only logs, so the store and everything else are left as they were.
dbPresent is the db guard (if (!db) return) and ok the write outcome. -/
def sendMessageToDb (dbPresent : Bool) (ok : Bool) (store : List Message)
    (msg : Message) : List Message :=
  if dbPresent then (if ok then store ++ [msg] else store) else store

/-- The whole send path: run handleSend, then apply the durable append (with
outcome ok) to the store.  The App state returned is the one handleSend
produced; the durable write never touches it. -/
def sendAndPersist (dbPresent : Bool) (ok : Bool) (ts : String) (s : AppState)
    (store : List Message) : AppState × List TransportCmd × List Message :=
  let r := handleSend ts s
  match r.2.2 with
  | none => (r.1, r.2.1, store)
  | some m => (r.1, r.2.1, sendMessageToDb dbPresent ok store m)

/-- One keystroke of a timed run: single-threaded event-loop semantics, so a
pending timer whose expiry is at or before the keystroke instant fires first
(emitting setTyping(false)), then handleInputChange runs. -/
def stepKey (s : AppState) (t : Nat) (txt : String) : AppState × List TransportCmd :=
  match s.timeoutAt with
  | some u =>
    if u ≤ t then
      let r1 := timerFire s
      let r2 := handleInputChange t txt r1.1
      (r2.1, r1.2 ++ r2.2)
    else handleInputChange t txt s
  | none => handleInputChange t txt s

/-- Run a burst of timestamped keystrokes through the timed semantics,
collecting all transport emissions in order. -/
def runBurst (s : AppState) : List (Nat × String) → AppState × List TransportCmd
  | [] => (s, [])
  | (t, txt) :: rest =>
    let r1 := stepKey s t txt
    let r2 := runBurst r1.1 rest
    (r2.1, r1.2 ++ r2.2)

/-- Each keystroke lands strictly before the timer armed by the previous one
(whose expiry is u) would fire, i.e. within 2000 ms of the previous keystroke. -/
def withinGaps (u : Nat) : List (Nat × String) → Bool
  | [] => true
  | (t, _) :: rest => decide (t < u) && withinGaps (t + 2000) rest

/-- Expiry instant of the timer pending after a burst: the timer armed by the
last keystroke (u is the expiry already pending when the burst starts). -/
def lastDeadline (u : Nat) : List (Nat × String) → Nat
  | [] => u
  | (t, _) :: rest => lastDeadline (t + 2000) rest

/-- Connection lifecycle state: db whether the Firestore handle was stored
(setDb in the init effect), isAuthReady the identity-readiness flag, username
the chosen username, hasConnected the hasConnectedRef guard cell. -/
structure LifeState where
  db : Bool
  isAuthReady : Bool
  username : String
  hasConnected : Bool
deriving Repr, DecidableEq, BEq

/-- Initial lifecycle state of a session. -/
def initLife : LifeState :=
  { db := false, isAuthReady := false, username := "", hasConnected := false }

/-- Lifecycle events: Firebase init storing the db handle, the auth callback
marking identity ready, the user choosing a username. -/
inductive LifeEvent where
  | initDone
  | authReady
  | setUsername (u : String)
deriving Repr, DecidableEq, BEq

/-- Effects the lifecycle controller issues: starting the Firestore snapshot
subscription, and connect(username) on the socket. -/
inductive LifeCmd where
  | subscribeDurable
  | connect (u : String)
deriving Repr, DecidableEq, BEq

/-- State update performed by each lifecycle event. -/
def applyLifeEvent (s : LifeState) : LifeEvent → LifeState
  | .initDone => { s with db := true }
  | .authReady => { s with isAuthReady := true }
  | .setUsername u => { s with username := u }

/-- Guard of the Firestore listener effect: if (!isAuthReady || !db) return. -/
def durableSubGuard (s : LifeState) : Bool :=
  s.isAuthReady && s.db

/-- One lifecycle step: apply the event, then run the two effects the way the
component re-runs them after a state update.  The Firestore effect subscribes
when its guard has just become true; the connection effect fires connect once,
flipping the hasConnectedRef guard. -/
def lifeStep (s : LifeState) (e : LifeEvent) : LifeState × List LifeCmd :=
  let s1 := applyLifeEvent s e
  let subCmds := if durableSubGuard s1 && !durableSubGuard s
    then [LifeCmd.subscribeDurable] else []
  if s1.isAuthReady ∧ s1.username ≠ "" ∧ s1.hasConnected = false then
    ({ s1 with hasConnected := true }, subCmds ++ [LifeCmd.connect s1.username])
  else (s1, subCmds)

/-- Run the lifecycle over an event list, collecting emitted commands. -/
def lifeRun (s : LifeState) : List LifeEvent → LifeState × List LifeCmd
  | [] => (s, [])
  | e :: rest =>
    let r1 := lifeStep s e
    let r2 := lifeRun r1.1 rest
    (r2.1, r1.2 ++ r2.2)

/-- Number of connect commands in an emission list. -/
def countConnects (cmds : List LifeCmd) : Nat :=
  cmds.countP (fun c => match c with | .connect _ => true | _ => false)

/-- A rendered message key: the JSX key expression msg.id || index, which is
the id when it is a truthy (non-empty) string and the list index otherwise. -/
inductive DisplayKey where
  | byId (i : String)
  | byIndex (n : Nat)
deriving Repr, DecidableEq, BEq

/-- JS truthiness of the optional id: absent and empty-string ids are falsy. -/
def idTruthy : Option String → Bool
  | some s => decide (s ≠ "")
  | none => false

/-- The display key of a message rendered at a given index of allMessages. -/
def displayKey (m : Message) (index : Nat) : DisplayKey :=
  if idTruthy m.id then DisplayKey.byId (m.id.getD "") else DisplayKey.byIndex index

/-- The display key the k-th live message receives inside allMessages: live
messages are rendered after the whole durable list, so the k-th live message
sits at index (length of persistentMessages) + k. -/
def liveKey (s : AppState) (k : Nat) : DisplayKey :=
  displayKey (s.liveMessages.getD k defaultMsg) (s.persistentMessages.length + k)

/-- Every event leaves the live list a prefix-extension: running events only
appends the received live messages after the existing ones. -/
theorem engineRun_liveMessages (es : List EngineEvent) :
    ∀ s : AppState, (engineRun s es).liveMessages = s.liveMessages ++ liveReceived es := by
  induction es with
  | nil => intro s; simp [engineRun, liveReceived]
  | cons e rest ih =>
    intro s
    have h1 : engineRun s (e :: rest) = engineRun (engineStep s e) rest := rfl
    rw [h1, ih]
    cases e <;> simp [engineStep, liveReceived, List.append_assoc]

/-- The durable list after a run is the processed latest snapshot, tracking the
docs whose processed form the starting state holds. -/
theorem engineRun_persistentMessages (es : List EngineEvent) :
    ∀ (s : AppState) (cur : List FireDoc),
      s.persistentMessages = processSnapshot cur →
      (engineRun s es).persistentMessages = processSnapshot (latestSnapshotDocs cur es) := by
  induction es with
  | nil => intro s cur h; simpa [engineRun, latestSnapshotDocs] using h
  | cons e rest ih =>
    intro s cur h
    cases e with
    | durableSnapshot docs =>
      simp only [engineRun, List.foldl_cons]
      exact ih (engineStep s (EngineEvent.durableSnapshot docs)) docs rfl
    | liveMessage m =>
      simp only [engineRun, List.foldl_cons, latestSnapshotDocs]
      exact ih (engineStep s (EngineEvent.liveMessage m)) cur (by simpa [engineStep] using h)
    | durableError =>
      simp only [engineRun, List.foldl_cons, latestSnapshotDocs]
      exact ih (engineStep s EngineEvent.durableError) cur (by simpa [engineStep] using h)

/-- C1: the rendered view is always the durable list followed by the live
list, and over every event sequence from the initial state the view equals the
processed latest durable snapshot (oldest-first) followed by the live messages
in receipt order, regardless of timestamps. -/
theorem view_is_durable_then_live :
    (∀ s : AppState, allMessages s = s.persistentMessages ++ s.liveMessages) ∧
    (∀ es : List EngineEvent,
      allMessages (engineRun initApp es) =
        processSnapshot (latestSnapshotDocs [] es) ++ liveReceived es) := by
  constructor
  · intro s; rfl
  · intro es
    unfold allMessages
    rw [engineRun_liveMessages es initApp,
        engineRun_persistentMessages es initApp [] rfl]
    simp [initApp]

/-- C5: a durable snapshot replaces the durable list wholesale and
independently of the previous contents; the new list is the newest-first store
result reversed to oldest-first, capped at 50 entries by the query limit, with
every entry's id set to the store-assigned document id. -/
theorem snapshot_replaces_wholesale (s sAlt : AppState) (docs : List FireDoc) :
    (engineStep s (EngineEvent.durableSnapshot docs)).persistentMessages
        = processSnapshot docs ∧
    (engineStep s (EngineEvent.durableSnapshot docs)).persistentMessages
        = (engineStep sAlt (EngineEvent.durableSnapshot docs)).persistentMessages ∧
    processSnapshot docs = docs.reverse.map withDocId ∧
    (processSnapshot (queryCap docs)).length ≤ 50 ∧
    ∀ d ∈ docs, (withDocId d).id = some d.docId := by
  refine ⟨rfl, rfl, ?_, ?_, ?_⟩
  · simp [processSnapshot, List.map_reverse]
  · simp only [processSnapshot, queryCap, List.length_reverse, List.length_map,
      List.length_take]
    exact min_le_left _ _
  · intro d _; rfl

/-- C5 witness: evaluating the snapshot theorem on a one-document snapshot. -/
theorem snapshot_replaces_wholesale_witness :
    (withDocId ⟨"d1", defaultMsg⟩).id = some "d1" :=
  (snapshot_replaces_wholesale initApp initApp [⟨"d1", defaultMsg⟩]).2.2.2.2
    ⟨"d1", defaultMsg⟩ (by simp)

/-- C8: the Firestore error callback mutates nothing — the durable list keeps
its last good value, the view is unchanged, and any later events are processed
exactly as if the error had not happened. -/
theorem durable_error_is_noop :
    (∀ s : AppState, engineStep s EngineEvent.durableError = s) ∧
    (∀ s : AppState, allMessages (engineStep s EngineEvent.durableError) = allMessages s) ∧
    (∀ (s : AppState) (es : List EngineEvent),
      engineRun s (EngineEvent.durableError :: es) = engineRun s es) := by
  exact ⟨fun s => rfl, fun s => rfl, fun s es => rfl⟩

/-- Lifecycle events never clear the hasConnectedRef cell. -/
theorem applyLifeEvent_hasConnected (s : LifeState) (e : LifeEvent) :
    (applyLifeEvent s e).hasConnected = s.hasConnected := by
  cases e <;> rfl

/-- Once the guard cell is set, no further event emits a connect command. -/
theorem lifeRun_connected_no_connect (es : List LifeEvent) :
    ∀ s : LifeState, s.hasConnected = true →
      countConnects (lifeRun s es).2 = 0 ∧ (lifeRun s es).1.hasConnected = true := by
  induction es with
  | nil => intro s h; exact ⟨rfl, h⟩
  | cons e rest ih =>
    intro s h
    have h1 : (applyLifeEvent s e).hasConnected = true := by
      rw [applyLifeEvent_hasConnected]; exact h
    have hcond : ¬((applyLifeEvent s e).isAuthReady ∧ (applyLifeEvent s e).username ≠ "" ∧
        (applyLifeEvent s e).hasConnected = false) := by
      intro hc
      rw [h1] at hc
      exact absurd hc.2.2 (by simp)
    have hstep : lifeStep s e =
        (applyLifeEvent s e,
         if durableSubGuard (applyLifeEvent s e) && !durableSubGuard s
           then [LifeCmd.subscribeDurable] else []) := by
      unfold lifeStep
      rw [if_neg hcond]
    have hrec := ih (applyLifeEvent s e) h1
    unfold lifeRun
    rw [hstep]
    refine ⟨?_, hrec.2⟩
    simp only [countConnects, List.countP_append]
    have hsub : List.countP
        (fun c => match c with | LifeCmd.connect _ => true | _ => false)
        (if durableSubGuard (applyLifeEvent s e) && !durableSubGuard s
          then [LifeCmd.subscribeDurable] else []) = 0 := by
      split <;> rfl
    rw [hsub]
    simpa [countConnects] using hrec.1

/-- From an unconnected state, a run emits at most one connect command. -/
theorem lifeRun_connects_le_one (es : List LifeEvent) :
    ∀ s : LifeState, s.hasConnected = false → countConnects (lifeRun s es).2 ≤ 1 := by
  induction es with
  | nil => intro s _; simp [lifeRun, countConnects]
  | cons e rest ih =>
    intro s h
    by_cases hc : (applyLifeEvent s e).isAuthReady = true ∧ (applyLifeEvent s e).username ≠ ""
        ∧ (applyLifeEvent s e).hasConnected = false
    · have hstep : lifeStep s e =
          ({ applyLifeEvent s e with hasConnected := true },
           (if durableSubGuard (applyLifeEvent s e) && !durableSubGuard s
             then [LifeCmd.subscribeDurable] else [])
             ++ [LifeCmd.connect (applyLifeEvent s e).username]) := by
        unfold lifeStep
        rw [if_pos hc]
      have hrest := (lifeRun_connected_no_connect rest
        ({ applyLifeEvent s e with hasConnected := true }) rfl).1
      unfold lifeRun
      rw [hstep]
      simp only [countConnects, List.countP_append] at *
      rw [hrest]
      have hsub : List.countP
          (fun c => match c with | LifeCmd.connect _ => true | _ => false)
          (if durableSubGuard (applyLifeEvent s e) && !durableSubGuard s
            then [LifeCmd.subscribeDurable] else []) = 0 := by
        split <;> rfl
      rw [hsub]
      simp [List.countP, List.countP.go]
    · have hstep : lifeStep s e =
          (applyLifeEvent s e,
           if durableSubGuard (applyLifeEvent s e) && !durableSubGuard s
             then [LifeCmd.subscribeDurable] else []) := by
        unfold lifeStep
        rw [if_neg hc]
      have h1 : (applyLifeEvent s e).hasConnected = false := by
        rw [applyLifeEvent_hasConnected]; exact h
      have hrest := ih (applyLifeEvent s e) h1
      unfold lifeRun
      rw [hstep]
      simp only [countConnects, List.countP_append] at *
      have hsub : List.countP
          (fun c => match c with | LifeCmd.connect _ => true | _ => false)
          (if durableSubGuard (applyLifeEvent s e) && !durableSubGuard s
            then [LifeCmd.subscribeDurable] else []) = 0 := by
        split <;> rfl
      rw [hsub]
      simpa using hrest

/-- C4: for every sequence of identity-readiness and username updates a
session makes at most one connect attempt, and once the guard cell is set no
sequence of further updates produces another connect command. -/
theorem connect_at_most_once :
    (∀ es : List LifeEvent, countConnects (lifeRun initLife es).2 ≤ 1) ∧
    (∀ (s : LifeState) (es : List LifeEvent), s.hasConnected = true →
      countConnects (lifeRun s es).2 = 0) := by
  constructor
  · intro es; exact lifeRun_connects_le_one es initLife rfl
  · intro s es h; exact (lifeRun_connected_no_connect es s h).1

/-- C4 witness: from an already-connected state, a further username update
emits no connect command. -/
theorem connect_at_most_once_witness :
    countConnects (lifeRun ⟨true, true, "alice", true⟩ [LifeEvent.setUsername "bob"]).2 = 0 :=
  connect_at_most_once.2 ⟨true, true, "alice", true⟩ [LifeEvent.setUsername "bob"] rfl

/-- Before the identity-readiness event, the ready flag stays down and neither
a durable subscription nor a connect attempt is emitted. -/
theorem lifeRun_no_ops_before_ready (es : List LifeEvent) :
    ∀ s : LifeState, s.isAuthReady = false → LifeEvent.authReady ∉ es →
      (lifeRun s es).2 = [] ∧ (lifeRun s es).1.isAuthReady = false := by
  induction es with
  | nil => intro s h _; exact ⟨rfl, h⟩
  | cons e rest ih =>
    intro s h hmem
    have hne : e ≠ LifeEvent.authReady := fun he => hmem (by rw [he]; exact List.mem_cons_self _ _)
    have h1 : (applyLifeEvent s e).isAuthReady = false := by
      cases e with
      | initDone => exact h
      | authReady => exact absurd rfl hne
      | setUsername u => exact h
    have hguard : durableSubGuard (applyLifeEvent s e) = false := by
      unfold durableSubGuard; rw [h1]; rfl
    have hcond : ¬((applyLifeEvent s e).isAuthReady ∧ (applyLifeEvent s e).username ≠ "" ∧
        (applyLifeEvent s e).hasConnected = false) := by
      intro hc
      rw [h1] at hc
      exact absurd hc.1 (by simp)
    have hstep : lifeStep s e = (applyLifeEvent s e, []) := by
      unfold lifeStep
      rw [if_neg hcond, hguard]
      rfl
    have hrec := ih (applyLifeEvent s e) h1 (fun hm => hmem (List.mem_cons_of_mem _ hm))
    unfold lifeRun
    rw [hstep]
    exact ⟨by simpa using hrec.1, hrec.2⟩

/-- C9: before the identity-readiness event no durable-store operation and no
connect attempt is emitted; once identity is ready the durable subscription
starts with no username chosen and no connection made, while the connect
attempt additionally needs a non-empty username. -/
theorem gating_on_identity_readiness :
    (∀ es : List LifeEvent, LifeEvent.authReady ∉ es → (lifeRun initLife es).2 = []) ∧
    ((lifeRun initLife [LifeEvent.initDone, LifeEvent.authReady]).2
        = [LifeCmd.subscribeDurable] ∧
     (lifeRun initLife [LifeEvent.initDone, LifeEvent.authReady]).1.hasConnected = false ∧
     countConnects (lifeRun initLife [LifeEvent.initDone, LifeEvent.authReady]).2 = 0) ∧
    (∀ u : String, u ≠ "" →
      (lifeRun initLife
        [LifeEvent.initDone, LifeEvent.authReady, LifeEvent.setUsername u]).2
        = [LifeCmd.subscribeDurable, LifeCmd.connect u]) := by
  refine ⟨?_, ⟨?_, ?_, ?_⟩, ?_⟩
  · intro es hmem
    exact (lifeRun_no_ops_before_ready es initLife rfl hmem).1
  · decide
  · decide
  · decide
  · intro u hu
    simp [lifeRun, lifeStep, applyLifeEvent, durableSubGuard, initLife, hu]

/-- C9 witness: the empty trace has no readiness event and emits nothing, and
choosing the username alice after readiness yields the connect attempt. -/
theorem gating_on_identity_readiness_witness :
    (lifeRun initLife []).2 = [] ∧
    (lifeRun initLife
      [LifeEvent.initDone, LifeEvent.authReady, LifeEvent.setUsername "alice"]).2
      = [LifeCmd.subscribeDurable, LifeCmd.connect "alice"] :=
  ⟨gating_on_identity_readiness.1 [] (by simp),
   gating_on_identity_readiness.2.2 "alice" (by decide)⟩

/-- C7: when the trimmed input is empty, handleSend returns before any effect:
no transport emission, no durable append, no typing-stop, no state change; the
full send-and-persist path likewise leaves the store untouched. -/
theorem empty_send_is_noop (ts : String) (s : AppState) (h : jsTrim s.input = "") :
    handleSend ts s = (s, [], none) ∧
    ∀ (dbPresent ok : Bool) (store : List Message),
      sendAndPersist dbPresent ok ts s store = (s, [], store) := by
  have h1 : handleSend ts s = (s, [], none) := by
    unfold handleSend
    rw [if_pos (Or.inl h)]
  refine ⟨h1, ?_⟩
  intro dbPresent ok store
  unfold sendAndPersist
  rw [h1]

/-- C7 witness: a whitespace-only input produces a no-op send. -/
theorem empty_send_is_noop_witness :
    handleSend "t9" { initApp with input := "   ", username := "alice" }
      = ({ initApp with input := "   ", username := "alice" }, [], none) :=
  (empty_send_is_noop "t9" { initApp with input := "   ", username := "alice" }
    (by decide)).1

/-- C6: the outcome of the durable append never reaches the component state:
the state and the transport emissions after a send whose durable write failed
are identical to those after one that succeeded, and the send path itself
never touches the durable or live message lists. -/
theorem durable_write_failure_swallowed (ts : String) (s : AppState)
    (store : List Message) (dbPresent : Bool) :
    (sendAndPersist dbPresent false ts s store).1
        = (sendAndPersist dbPresent true ts s store).1 ∧
    (sendAndPersist dbPresent false ts s store).2.1
        = (sendAndPersist dbPresent true ts s store).2.1 ∧
    allMessages (sendAndPersist dbPresent false ts s store).1
        = allMessages (sendAndPersist dbPresent true ts s store).1 ∧
    (handleSend ts s).1.persistentMessages = s.persistentMessages ∧
    (handleSend ts s).1.liveMessages = s.liveMessages := by
  have key : ∀ ok : Bool, (sendAndPersist dbPresent ok ts s store).1 = (handleSend ts s).1
      ∧ (sendAndPersist dbPresent ok ts s store).2.1 = (handleSend ts s).2.1 := by
    intro ok
    simp only [sendAndPersist]
    cases h : (handleSend ts s).2.2 <;> simp [h]
  have hstate : (handleSend ts s).1.persistentMessages = s.persistentMessages ∧
      (handleSend ts s).1.liveMessages = s.liveMessages := by
    by_cases hc : jsTrim s.input = "" ∨ s.username = "" <;>
      simp [handleSend, hc]
  refine ⟨?_, ?_, ?_, hstate.1, hstate.2⟩
  · rw [(key false).1, (key true).1]
  · rw [(key false).2, (key true).2]
  · rw [(key false).1, (key true).1]

/-- C10: an input change emits start-typing exactly when the new text is
non-empty and no timer is pending, never emits stop-typing synchronously (even
when the field becomes empty), and always re-arms the 2000 ms timer. -/
theorem input_change_emissions (now : Nat) (newText : String) (s : AppState) :
    (handleInputChange now newText s).2
        = (if 0 < newText.length ∧ s.timeoutAt = none
            then [TransportCmd.setTyping true] else []) ∧
    (TransportCmd.setTyping true ∈ (handleInputChange now newText s).2
        ↔ (0 < newText.length ∧ s.timeoutAt = none)) ∧
    TransportCmd.setTyping false ∉ (handleInputChange now newText s).2 ∧
    (handleInputChange now newText s).1.timeoutAt = some (now + 2000) ∧
    (handleInputChange now newText s).1.input = newText := by
  have h1 : (handleInputChange now newText s).2
      = (if 0 < newText.length ∧ s.timeoutAt = none
          then [TransportCmd.setTyping true] else []) := rfl
  refine ⟨h1, ?_, ?_, rfl, rfl⟩
  · rw [h1]
    split
    · rename_i hc; simp [hc]
    · rename_i hc; simp [hc]
  · rw [h1]
    split <;> simp

/-- A non-empty string has positive length (the JS guard newText.length > 0). -/
theorem length_pos_of_ne_empty (s : String) (h : s ≠ "") : 0 < s.length := by
  cases s with
  | mk data =>
    cases data with
    | nil => exact absurd rfl h
    | cons c cs => simp [String.length]

/-- A keystroke landing strictly before the pending timer expiry never sees
the timer fire: only handleInputChange runs. -/
theorem stepKey_not_due (s : AppState) (t : Nat) (txt : String) (u : Nat)
    (hs : s.timeoutAt = some u) (ht : t < u) :
    stepKey s t txt = handleInputChange t txt s := by
  unfold stepKey
  simp only [hs]
  rw [if_neg (Nat.not_le.mpr ht)]

/-- With a timer already pending the input-change handler emits nothing and
just re-arms the timer. -/
theorem handleInputChange_pending (now : Nat) (txt : String) (s : AppState) (u : Nat)
    (hs : s.timeoutAt = some u) :
    handleInputChange now txt s
      = ({ s with input := txt, timeoutAt := some (now + 2000) }, []) := by
  have hne : ¬(0 < txt.length ∧ s.timeoutAt = none) := by
    intro hc
    rw [hs] at hc
    exact Option.noConfusion hc.2
  simp only [handleInputChange, if_neg hne]

/-- While the typing timer is pending, a burst whose keystrokes each land
before the current expiry emits nothing and leaves the timer armed at the last
keystroke plus 2000 ms. -/
theorem runBurst_timer_pending (ks : List (Nat × String)) :
    ∀ (s : AppState) (u : Nat), s.timeoutAt = some u → withinGaps u ks = true →
      (runBurst s ks).2 = [] ∧
      (runBurst s ks).1.timeoutAt = some (lastDeadline u ks) := by
  induction ks with
  | nil =>
    intro s u hs _
    refine ⟨rfl, ?_⟩
    simpa [runBurst, lastDeadline] using hs
  | cons k rest ih =>
    obtain ⟨t, txt⟩ := k
    intro s u hs hw
    have htw : t < u ∧ withinGaps (t + 2000) rest = true := by
      simpa [withinGaps, Bool.and_eq_true] using hw
    have hstep : stepKey s t txt
        = ({ s with input := txt, timeoutAt := some (t + 2000) }, []) := by
      rw [stepKey_not_due s t txt u hs htw.1,
          handleInputChange_pending t txt s u hs]
    have hrec := ih ({ s with input := txt, timeoutAt := some (t + 2000) })
      (t + 2000) rfl htw.2
    unfold runBurst
    rw [hstep]
    exact ⟨by simpa using hrec.1, by simpa [lastDeadline] using hrec.2⟩

/-- C2: a burst of non-empty keystrokes each within 2000 ms of the previous,
started from the idle state, emits start-typing exactly once (on the first
keystroke); the timer is left armed 2000 ms after the last keystroke, its
firing emits stop-typing exactly once, and a valid send emits stop-typing
exactly once immediately. -/
theorem typing_debounce (s0 : AppState) (t1 : Nat) (x1 : String)
    (rest : List (Nat × String)) (hidle : s0.timeoutAt = none) (hx1 : x1 ≠ "")
    (hgaps : withinGaps (t1 + 2000) rest = true) :
    (runBurst s0 ((t1, x1) :: rest)).2 = [TransportCmd.setTyping true] ∧
    (runBurst s0 ((t1, x1) :: rest)).1.timeoutAt
        = some (lastDeadline (t1 + 2000) rest) ∧
    (timerFire (runBurst s0 ((t1, x1) :: rest)).1).2 = [TransportCmd.setTyping false] ∧
    (∀ (ts : String) (s : AppState), jsTrim s.input ≠ "" → s.username ≠ "" →
      List.count (TransportCmd.setTyping false) (handleSend ts s).2.1 = 1) := by
  have hpos : 0 < x1.length ∧ s0.timeoutAt = none :=
    ⟨length_pos_of_ne_empty x1 hx1, hidle⟩
  have hstep1 : stepKey s0 t1 x1
      = ({ s0 with input := x1, timeoutAt := some (t1 + 2000) },
         [TransportCmd.setTyping true]) := by
    unfold stepKey
    simp only [hidle]
    simp only [handleInputChange, if_pos hpos]
  have hrec := runBurst_timer_pending rest
    ({ s0 with input := x1, timeoutAt := some (t1 + 2000) }) (t1 + 2000) rfl hgaps
  refine ⟨?_, ?_, rfl, ?_⟩
  · unfold runBurst
    rw [hstep1]
    simp [hrec.1]
  · unfold runBurst
    rw [hstep1]
    simpa using hrec.2
  · intro ts s hts hu
    have hne : ¬(jsTrim s.input = "" ∨ s.username = "") := by
      intro hc
      cases hc with
      | inl a => exact hts a
      | inr b => exact hu b
    simp only [handleSend, if_neg hne]
    rfl

/-- C2 witness: a three-keystroke burst at 100, 1500 and 3000 ms evaluated
through the theorem. -/
theorem typing_debounce_witness :
    (runBurst initApp [(100, "h"), (1500, "he"), (3000, "hel")]).2
        = [TransportCmd.setTyping true] ∧
    (runBurst initApp [(100, "h"), (1500, "he"), (3000, "hel")]).1.timeoutAt
        = some (lastDeadline (100 + 2000) [(1500, "he"), (3000, "hel")]) ∧
    (timerFire (runBurst initApp [(100, "h"), (1500, "he"), (3000, "hel")]).1).2
        = [TransportCmd.setTyping false] ∧
    (∀ (ts : String) (s : AppState), jsTrim s.input ≠ "" → s.username ≠ "" →
      List.count (TransportCmd.setTyping false) (handleSend ts s).2.1 = 1) :=
  typing_debounce initApp 100 "h" [(1500, "he"), (3000, "hel")] rfl (by decide) (by decide)

/-- C10 witness: the emission characterisation evaluated on a concrete input
change from the idle initial state. -/
theorem input_change_emissions_witness :
    (handleInputChange 5 "x" initApp).2
        = (if 0 < "x".length ∧ initApp.timeoutAt = none
            then [TransportCmd.setTyping true] else []) ∧
    (TransportCmd.setTyping true ∈ (handleInputChange 5 "x" initApp).2
        ↔ (0 < "x".length ∧ initApp.timeoutAt = none)) ∧
    TransportCmd.setTyping false ∉ (handleInputChange 5 "x" initApp).2 ∧
    (handleInputChange 5 "x" initApp).1.timeoutAt = some (5 + 2000) ∧
    (handleInputChange 5 "x" initApp).1.input = "x" :=
  input_change_emissions 5 "x" initApp

/-- An unidentified live message, as the spec allows live messages to be. -/
def exLiveMsg : Message :=
  { id := none, sender := "alice", text := "hi", timestamp := "t1" }

/-- A durable document arriving in a later snapshot. -/
def exDoc : FireDoc :=
  { docId := "doc1", data := { id := none, sender := "bob", text := "old", timestamp := "t0" } }

/-- State after the live message was admitted to the (still history-less) view. -/
def exS1 : AppState := engineRun initApp [EngineEvent.liveMessage exLiveMsg]

/-- State after a one-document durable snapshot then arrives. -/
def exS2 : AppState := engineStep exS1 (EngineEvent.durableSnapshot [exDoc])

/-- C3 counterexample: an id-less live message is keyed by its index in the
merged view; a durable snapshot arriving afterwards shifts that index from 0
to 1, so its display identity changes even though the message itself did not. -/
theorem display_identity_counterexample :
    exS2 = engineStep exS1 (EngineEvent.durableSnapshot [exDoc]) ∧
    exS1.liveMessages.getD 0 defaultMsg = exS2.liveMessages.getD 0 defaultMsg ∧
    liveKey exS1 0 = DisplayKey.byIndex 0 ∧
    liveKey exS2 0 = DisplayKey.byIndex 1 ∧
    liveKey exS1 0 ≠ liveKey exS2 0 := by
  refine ⟨rfl, rfl, ?_, ?_, ?_⟩ <;> decide

/-- C3 amended: a message with a truthy (non-empty) id keeps its display
identity regardless of the index it is rendered at, and an id-less live
message keeps its position-based identity under further live appends; only a
durable snapshot that changes the durable count can move it. -/
theorem display_identity_amended :
    (∀ (m : Message) (v : String) (i j : Nat), m.id = some v → v ≠ "" →
      displayKey m i = displayKey m j) ∧
    (∀ (s : AppState) (m : Message) (k : Nat), k < s.liveMessages.length →
      liveKey (engineStep s (EngineEvent.liveMessage m)) k = liveKey s k) := by
  constructor
  · intro m v i j hm hv
    unfold displayKey idTruthy
    rw [hm]
    simp [hv]
  · intro s m k hk
    unfold liveKey
    simp only [engineStep]
    rw [List.getD, List.getD]
    simp only [List.get?_eq_getElem?]
    rw [List.getElem?_append_left hk]

/-- C3 amended witness: the durable message keeps its key at indices 0 and 5,
and the admitted live message keeps its key across a further live append. -/
theorem display_identity_amended_witness :
    displayKey (withDocId exDoc) 0 = displayKey (withDocId exDoc) 5 ∧
    liveKey (engineStep exS1 (EngineEvent.liveMessage exLiveMsg)) 0 = liveKey exS1 0 :=
  ⟨display_identity_amended.1 (withDocId exDoc) "doc1" 0 5 rfl (by decide),
   display_identity_amended.2 exS1 exLiveMsg 0 (by decide)⟩

end Chat
